import Mathlib

/-!
# Formal model of the deepweb-proxy crawl engine

A shallow embedding, in Lean 4, of the crawl core implemented in
`src/mcp_engine.py` of the deepweb-proxy repository: transport (proxy
session) selection, the per-site bounded-depth crawl loop, the media
download-and-store pipeline, link and media-reference extraction, and the
retry orchestrator.  Python string operations used by the source
(`str.endswith`, `str.lower`, `in`-substring, `str.strip`, ...) are
modelled over `String.data` (lists of characters) so that every definition
is executable and kernel-reducible.  Effects on the outside world (HTTP
GETs, object-store uploads, database row inserts) are made explicit as
fields of result records; nondeterministic inputs (server responses, page
documents, per-site outcomes) are supplied by oracle functions.
-/

namespace DeepwebProxy

/-! ## Python string primitives, modelled over lists of characters -/

/-- Substring containment, modelling Python's `sub in s`. -/
def listHasSub : List Char → List Char → Bool
  | _, [] => true
  | [], _ :: _ => false
  | c :: rest, sub => if sub.isPrefixOf (c :: rest) then true else listHasSub rest sub

/-- Model of Python `s.startswith(t)`. -/
def strStartsWith (s t : String) : Bool := t.data.isPrefixOf s.data

/-- Model of Python `s.endswith(t)`. -/
def strEndsWith (s t : String) : Bool := t.data.isSuffixOf s.data

/-- Model of Python `t in s` (substring containment). -/
def strContainsSub (s t : String) : Bool := listHasSub s.data t.data

/-- ASCII lower-casing of one character (the hostnames and extensions the
source lower-cases are ASCII). -/
def pyCharLower (c : Char) : Char :=
  if 'A' ≤ c ∧ c ≤ 'Z' then Char.ofNat (c.toNat + 32) else c

/-- Model of Python `s.lower()`. -/
def pyLower (s : String) : String := ⟨s.data.map pyCharLower⟩

/-- Whitespace recognised by the model of Python `str.strip`. -/
def pyIsSpace (c : Char) : Bool := c = ' ' ∨ c = '\t' ∨ c = '\n' ∨ c = '\r'

/-- Model of Python `s.strip()`. -/
def pyStrip (s : String) : String :=
  ⟨((s.data.dropWhile pyIsSpace).reverse.dropWhile pyIsSpace).reverse⟩

/-- Model of Python `list(set(xs))` for strings.  CPython's iteration order
over a set is unspecified; this determinization keeps the last occurrence
of each element.  Only membership in the result is relied upon. -/
def pySetList : List String → List String
  | [] => []
  | s :: rest => if rest.contains s then pySetList rest else s :: pySetList rest

theorem mem_pySetList {a : String} : ∀ {l : List String}, a ∈ pySetList l ↔ a ∈ l := by
  intro l
  induction l with
  | nil => simp [pySetList]
  | cons s rest ih =>
    by_cases h : rest.contains s
    · simp only [pySetList, h, if_pos]
      rw [ih]
      constructor
      · intro hm; exact List.mem_cons_of_mem _ hm
      · intro hm
        rcases List.mem_cons.mp hm with h1 | h2
        · subst h1; simpa using h
        · exact h2
    · simp only [pySetList, h, if_neg, Bool.false_eq_true, not_false_iff]
      simp [List.mem_cons, ih]

/-! ## URL helpers (models of `urllib.parse`) -/

/-- Model of `urlparse(url).hostname.lower() if parsed.hostname else ""`
(as used at `mcp_engine.py:673-674`): for an `http`/`https` URL, the
authority component up to the first `/`, `?` or `#`, with any userinfo
(`...@`) and port (`:...`) stripped, lower-cased; for URLs of any other
scheme the source obtains no hostname and falls back to `""`. -/
def hostnameOf (url : String) : String :=
  let rest : List Char :=
    if strStartsWith url "http://" then url.data.drop 7
    else if strStartsWith url "https://" then url.data.drop 8
    else []
  let netloc := rest.takeWhile (fun c => ¬ (c = '/' ∨ c = '?' ∨ c = '#'))
  let afterAt := (netloc.reverse.takeWhile (fun c => c ≠ '@')).reverse
  let host := afterAt.takeWhile (fun c => c ≠ ':')
  ⟨host.map pyCharLower⟩

/-- Model of `urlparse(url).path` for `http`/`https` URLs: everything from
the first `/` after the authority up to `?` or `#`. -/
def pathOf (url : String) : String :=
  let rest : List Char :=
    if strStartsWith url "http://" then url.data.drop 7
    else if strStartsWith url "https://" then url.data.drop 8
    else url.data
  let afterHost := rest.dropWhile (fun c => c ≠ '/')
  ⟨afterHost.takeWhile (fun c => ¬ (c = '?' ∨ c = '#'))⟩

/-- Model of `os.path.splitext(path)[1]`: the extension (dot included) of
the final path component, ignoring leading dots of that component. -/
def splitextExt (path : String) : String :=
  let base := (path.data.reverse.takeWhile (fun c => c ≠ '/')).reverse
  let stripped := base.dropWhile (fun c => c = '.')
  if stripped.contains '.' then
    ⟨'.' :: (stripped.reverse.takeWhile (fun c => c ≠ '.')).reverse⟩
  else ""

/-- The scheme-and-authority part of an `http`/`https` URL (helper for
`urljoinModel`). -/
def schemeHostOf (url : String) : String :=
  if strStartsWith url "http://" then
    ⟨"http://".data ++ (url.data.drop 7).takeWhile (fun c => c ≠ '/')⟩
  else if strStartsWith url "https://" then
    ⟨"https://".data ++ (url.data.drop 8).takeWhile (fun c => c ≠ '/')⟩
  else url

/-- The base URL with its final path segment removed (helper for
`urljoinModel`). -/
def dropLastSegment (url : String) : String :=
  ⟨(url.data.reverse.dropWhile (fun c => c ≠ '/')).reverse⟩

/-- Model of `urllib.parse.urljoin(base, rel)` for the cases exercised by
the crawler: a reference that is itself an absolute `http`/`https` URL
replaces the base entirely (the exact library behaviour); a root-relative
reference is resolved against the base's scheme and authority; any other
reference is appended to the base with its final segment dropped
(approximating relative resolution without `.`/`..` normalisation). -/
def urljoinModel (base rel : String) : String :=
  if strStartsWith rel "http://" || strStartsWith rel "https://" then rel
  else if strStartsWith rel "/" then schemeHostOf base ++ rel
  else dropLastSegment base ++ rel

/-! ## Transport registry (`get_appropriate_session`, `mcp_engine.py:668-704`) -/

/-- The kinds of transport a fetch could conceivably use.  The source holds
a Tor `requests` session and an I2P session; a direct (non-proxy) clearnet
session is deliberately never created (`mcp_engine.py:356-357`), and
`ProxyKind.direct` exists in the model to state that the selector never
yields it. -/
inductive ProxyKind
  | direct
  | tor
  | i2p
deriving DecidableEq, Repr

/-- Runtime proxy state consulted by the selector: the `ENABLE_TOR` /
`ENABLE_I2P` configuration flags, whether `self.tor_session` /
`self.i2p_session` attributes exist, and `self.i2p_working`. -/
structure ProxyConfig where
  enableTor : Bool
  hasTorSession : Bool
  enableI2p : Bool
  hasI2pSession : Bool
  i2pWorking : Bool
deriving DecidableEq, Repr

/-- `AIResearchCrawler.get_appropriate_session` (`mcp_engine.py:668-704`):
`.onion` hosts use Tor when available, `.i2p` hosts use I2P when enabled
and working with a Tor fallback otherwise, and every other host (clearnet)
uses Tor; `none` models the `(None, None)` return. -/
def get_appropriate_session (c : ProxyConfig) (url : String) : Option ProxyKind :=
  let domain := hostnameOf url
  if strEndsWith domain ".onion" then
    if c.enableTor && c.hasTorSession then some .tor else none
  else if strEndsWith domain ".i2p" then
    if c.enableI2p && c.hasI2pSession && c.i2pWorking then some .i2p
    else if c.enableTor && c.hasTorSession then some .tor
    else none
  else
    if c.enableTor && c.hasTorSession then some .tor else none

/-- The Tor transport is available (claim-side notion: `ENABLE_TOR` set and
the Tor session constructed). -/
def torAvailable (c : ProxyConfig) : Bool := c.enableTor && c.hasTorSession

/-- The I2P transport is enabled and reported healthy (claim-side notion). -/
def i2pEnabledHealthy (c : ProxyConfig) : Bool :=
  c.enableI2p && c.hasI2pSession && c.i2pWorking

/-- Transport selection as the specification words it: Tor for `.onion`
(none if Tor unavailable); I2P for `.i2p` when enabled and healthy, falling
back to Tor, else none; Tor for every other hostname (none if Tor
unavailable); never the direct transport. -/
def selectTransportSpec (c : ProxyConfig) (url : String) : Option ProxyKind :=
  let host := hostnameOf url
  if strEndsWith host ".onion" then
    if torAvailable c then some .tor else none
  else if strEndsWith host ".i2p" then
    if i2pEnabledHealthy c then some .i2p
    else if torAvailable c then some .tor
    else none
  else
    if torAvailable c then some .tor else none

/-- C1: Transport selection is total and deterministic (a total Lean
function of the proxy state and URL); it returns the Tor transport for
`.onion` hostnames (none if Tor is unavailable), the I2P transport for
`.i2p` hostnames when I2P is enabled and healthy (the Tor transport as
fallback when it is not, none when neither is available), and the Tor
transport for every other hostname; and no URL — in particular no clearnet
URL, with or without Tor enabled — is ever routed through the direct
(non-proxy) transport. -/
theorem C1_transport_selection (c : ProxyConfig) (url : String) :
    get_appropriate_session c url = selectTransportSpec c url ∧
    get_appropriate_session c url ≠ some ProxyKind.direct := by
  constructor
  · simp only [get_appropriate_session, selectTransportSpec, torAvailable, i2pEnabledHealthy]
  · simp only [get_appropriate_session]
    split
    · split <;> simp
    · split
      · split <;> (try split) <;> simp
      · split <;> simp

/-! ## Media categorisation, size caps, object keys
(`mcp_engine.py:1321-1384`) -/

/-- Per-category size caps: `MAX_IMAGE_SIZE`, `MAX_AUDIO_SIZE`,
`MAX_VIDEO_SIZE` (`mcp_engine.py:172-174`). -/
structure MediaConfig where
  maxImageSize : Nat
  maxAudioSize : Nat
  maxVideoSize : Nat
deriving DecidableEq, Repr

/-- The configuration defaults: 10 MiB, 10 MiB, 50 MiB. -/
def defaultMediaConfig : MediaConfig :=
  { maxImageSize := 10485760, maxAudioSize := 10485760, maxVideoSize := 52428800 }

/-- `AIResearchCrawler._categorize_media_type` (`mcp_engine.py:1321-1346`):
categorise by extension substrings of the lower-cased URL, falling back to
the `Content-Type` header prefix, else `other`.  The empty content type
models Python's falsy `''`/`None`. -/
def _categorize_media_type (url : String) (contentType : String) : String :=
  let u := pyLower url
  if [".jpg", ".jpeg", ".png", ".gif", ".bmp", ".webp", ".svg"].any
      (fun e => strContainsSub u e) then "image"
  else if [".mp4", ".avi", ".mov", ".wmv", ".flv", ".webm", ".mkv"].any
      (fun e => strContainsSub u e) then "video"
  else if [".mp3", ".wav", ".ogg", ".m4a", ".flac", ".aac"].any
      (fun e => strContainsSub u e) then "audio"
  else if contentType ≠ "" then
    if strStartsWith contentType "image/" then "image"
    else if strStartsWith contentType "video/" then "video"
    else if strStartsWith contentType "audio/" then "audio"
    else "other"
  else "other"

/-- `AIResearchCrawler._get_size_limit_for_media_type`
(`mcp_engine.py:1348-1357`). -/
def _get_size_limit_for_media_type (mc : MediaConfig) (mediaType : String) : Nat :=
  if mediaType = "image" then mc.maxImageSize
  else if mediaType = "audio" then mc.maxAudioSize
  else if mediaType = "video" then mc.maxVideoSize
  else mc.maxImageSize

/-- `AIResearchCrawler._generate_minio_object_name`
(`mcp_engine.py:1370-1384`).  `md5Hex` abstracts `hashlib.md5(...).hexdigest()`
and `timestamp` abstracts `int(time.time())`; the second parameter is named
`page_id` in the source and is interpolated into the `page_{page_id}/...`
key (Python formats whatever object is passed, hence `String` here). -/
def _generate_minio_object_name (md5Hex : String → String) (timestamp : Nat)
    (media_url : String) (page_id : String) : String :=
  "page_" ++ page_id ++ "/" ++ toString timestamp ++ "_" ++ md5Hex media_url
    ++ (if pathOf media_url ≠ "" then splitextExt (pathOf media_url) else "")

/-! ## The media download-and-store pipeline
(`AIResearchCrawler._download_and_store_media_parallel`,
`mcp_engine.py:1043-1206`) -/

/-- The server's response to the media GET, as the oracle supplies it:
whether `raise_for_status` passes, the `content-type` header (the source
defaults it to `''`), the `content-length` header (`none` models a missing
or empty header, which is falsy in the source's check), and the sizes of
the chunks `iter_content(chunk_size=8192)` yields. -/
structure MediaResponse where
  ok : Bool
  contentType : String
  contentLength : Option Nat
  chunks : List Nat
deriving DecidableEq, Repr

/-- Environment oracle for one media download: the DB de-duplication query
result, MinIO bucket/upload outcomes, DB insert outcomes (including the
"Data too long" retry path), and the impure `md5`/`time` values. -/
structure MediaEnv where
  existsInDb : Bool
  bucketOk : Bool
  uploadOk : Bool
  dbFirstInsertOk : Bool
  dbErrorIsDataTooLong : Bool
  dbRetryInsertOk : Bool
  md5Hex : String → String
  timestamp : Nat

/-- The externally visible effects of one media-pipeline invocation. -/
structure MediaEffects where
  result : Bool
  getIssued : Bool
  uploadAttempted : Bool
  uploaded : Bool
  inserted : Bool
  objectName : Option String
deriving DecidableEq, Repr

/-- An invocation that performed no network or storage action. -/
def noMediaEffects (result : Bool) : MediaEffects :=
  { result := result, getIssued := false, uploadAttempted := false,
    uploaded := false, inserted := false, objectName := none }

/-- The advertised-size check (`mcp_engine.py:1085`): Python's
`if content_length and int(content_length) > size_limit`, with a falsy
(missing or empty) header modelled by `none`. -/
def advertisedTooLarge (contentLength : Option Nat) (limit : Nat) : Bool :=
  match contentLength with
  | some len => decide (len > limit)
  | none => false

/-- The streaming read loop (`mcp_engine.py:1090-1101`): accumulate chunk
sizes, skipping empty chunks (`if chunk:`), and abort with `none` as soon
as the cumulative size exceeds the limit. -/
def readStream (limit : Nat) : Nat → List Nat → Option Nat
  | acc, [] => some acc
  | acc, c :: rest =>
    if c = 0 then readStream limit acc rest
    else if acc + c > limit then none
    else readStream limit (acc + c) rest

/-- `AIResearchCrawler._download_and_store_media_parallel`
(`mcp_engine.py:1043-1206`), with its effects made explicit: URL
validation; DB de-duplication; session selection via
`get_appropriate_session`; the GET with `raise_for_status`; the advertised
`Content-Length` cap check; the streamed cap check; bucket creation; the
MinIO upload (note the object name is built with `categorized_type` in the
`page_id` slot, as at `mcp_engine.py:1107`); the DB insert with content
inlined only up to 1 MiB, retried without content on "Data too long".
The source's `page_id` argument is used only inside the DB queries that
`env.existsInDb` and the insert flags abstract, so it is carried here
unused; in particular it does not reach the object name. -/
def _download_and_store_media_parallel (pc : ProxyConfig) (mc : MediaConfig)
    (env : MediaEnv) (_page_id : Nat) (media_url : String) (resp : MediaResponse) :
    MediaEffects :=
  if ¬ (strStartsWith media_url "http://" || strStartsWith media_url "https://") then
    noMediaEffects false
  else if env.existsInDb then noMediaEffects true
  else
    match get_appropriate_session pc media_url with
    | none => noMediaEffects false
    | some _ =>
      if ¬ resp.ok then { noMediaEffects false with getIssued := true }
      else
        let categorized := _categorize_media_type media_url resp.contentType
        let limit := _get_size_limit_for_media_type mc categorized
        if advertisedTooLarge resp.contentLength limit then
          { noMediaEffects false with getIssued := true }
        else
          match readStream limit 0 resp.chunks with
          | none => { noMediaEffects false with getIssued := true }
          | some total =>
            let objectName :=
              _generate_minio_object_name env.md5Hex env.timestamp media_url categorized
            if ¬ env.bucketOk then { noMediaEffects false with getIssued := true }
            else if ¬ env.uploadOk then
              { noMediaEffects false with getIssued := true, uploadAttempted := true }
            else
              let inserted :=
                if env.dbFirstInsertOk then true
                else if env.dbErrorIsDataTooLong && decide (total ≤ 1048576) then
                  env.dbRetryInsertOk
                else false
              { result := inserted, getIssued := true, uploadAttempted := true,
                uploaded := true, inserted := inserted, objectName := some objectName }

/-- If the streaming loop returns a total (does not abort), that total is
the sum of the chunk sizes and is within the limit. -/
theorem readStream_some {limit : Nat} :
    ∀ {l : List Nat} {acc t : Nat}, acc ≤ limit → readStream limit acc l = some t →
      t = acc + l.sum ∧ t ≤ limit := by
  intro l
  induction l with
  | nil =>
    intro acc t hacc h
    simp only [readStream, Option.some.injEq] at h
    subst h
    simpa using hacc
  | cons c rest ih =>
    intro acc t hacc h
    simp only [readStream] at h
    by_cases hc : c = 0
    · subst hc
      simp only [if_pos rfl] at h
      have := ih hacc h
      simpa [Nat.add_assoc] using this
    · rw [if_neg hc] at h
      by_cases hover : acc + c > limit
      · rw [if_pos hover] at h; cases h
      · rw [if_neg hover] at h
        have hle : acc + c ≤ limit := Nat.le_of_not_lt hover
        have := ih hle h
        simpa [Nat.add_assoc] using this

/-- C5: for any media category with size cap `C` (as computed by
`_get_size_limit_for_media_type` from `_categorize_media_type`), if the
advertised `Content-Length` exceeds `C`, or the streamed byte count exceeds
`C`, then the pipeline performs no object-store upload and creates no
MediaFile row: the system state is left unchanged for that media
reference. -/
theorem C5_size_cap_no_state_change (pc : ProxyConfig) (mc : MediaConfig)
    (env : MediaEnv) (page_id : Nat) (media_url : String) (resp : MediaResponse)
    (hover :
      (∃ len, resp.contentLength = some len ∧
        len > _get_size_limit_for_media_type mc
          (_categorize_media_type media_url resp.contentType)) ∨
      resp.chunks.sum > _get_size_limit_for_media_type mc
          (_categorize_media_type media_url resp.contentType)) :
    (_download_and_store_media_parallel pc mc env page_id media_url resp).uploadAttempted
        = false ∧
    (_download_and_store_media_parallel pc mc env page_id media_url resp).uploaded
        = false ∧
    (_download_and_store_media_parallel pc mc env page_id media_url resp).inserted
        = false := by
  have habort :
      advertisedTooLarge resp.contentLength
          (_get_size_limit_for_media_type mc
            (_categorize_media_type media_url resp.contentType)) = true ∨
      readStream (_get_size_limit_for_media_type mc
          (_categorize_media_type media_url resp.contentType)) 0 resp.chunks = none := by
    rcases hover with ⟨len, hlen, hgt⟩ | hsum
    · left
      simp [advertisedTooLarge, hlen, hgt]
    · right
      cases hrs : readStream (_get_size_limit_for_media_type mc
          (_categorize_media_type media_url resp.contentType)) 0 resp.chunks with
      | none => rfl
      | some t =>
        exfalso
        have := readStream_some (Nat.zero_le _) hrs
        omega
  unfold _download_and_store_media_parallel
  repeat' split
  all_goals
    by_cases hadv : advertisedTooLarge resp.contentLength
        (_get_size_limit_for_media_type mc
          (_categorize_media_type media_url resp.contentType)) = true <;>
    rcases habort with h | h <;>
    simp_all [noMediaEffects]

/-- Concrete data for the C5 witness: an all-available proxy state, tiny
caps, a benign environment, and a response streaming 16 bytes against a
10-byte image cap. -/
def proxyAllOn : ProxyConfig :=
  { enableTor := true, hasTorSession := true, enableI2p := true,
    hasI2pSession := true, i2pWorking := true }

def tinyCaps : MediaConfig := { maxImageSize := 10, maxAudioSize := 10, maxVideoSize := 10 }

def benignMediaEnv : MediaEnv :=
  { existsInDb := false, bucketOk := true, uploadOk := true,
    dbFirstInsertOk := true, dbErrorIsDataTooLong := false, dbRetryInsertOk := true,
    md5Hex := fun _ => "h", timestamp := 99 }

def oversizedResp : MediaResponse :=
  { ok := true, contentType := "", contentLength := none, chunks := [8, 8] }

/-- Witness for C5 at a concrete input: a 16-byte stream against the
10-byte image cap neither uploads nor inserts. -/
theorem C5_size_cap_no_state_change_witness :
    (_download_and_store_media_parallel proxyAllOn tinyCaps benignMediaEnv 1
        "http://x.test/a.jpg" oversizedResp).uploadAttempted = false ∧
    (_download_and_store_media_parallel proxyAllOn tinyCaps benignMediaEnv 1
        "http://x.test/a.jpg" oversizedResp).uploaded = false ∧
    (_download_and_store_media_parallel proxyAllOn tinyCaps benignMediaEnv 1
        "http://x.test/a.jpg" oversizedResp).inserted = false :=
  C5_size_cap_no_state_change proxyAllOn tinyCaps benignMediaEnv 1
    "http://x.test/a.jpg" oversizedResp (Or.inr (by decide))

/-- A small successful media response used for the C9 evaluation. -/
def smallOkResp : MediaResponse :=
  { ok := true, contentType := "image/jpeg", contentLength := some 5, chunks := [5] }

/-- C9: evaluating the pipeline at a concrete failing input.  For the media
URL `http://example.test/pic.jpg` downloaded on behalf of Page 7, the
object key actually produced is `page_image/99_h.jpg` — the media category
sits in the `page_{...}` slot — and it does not have the claimed form
`page_7/...`: the call at `mcp_engine.py:1107` passes `categorized_type`
into `_generate_minio_object_name`'s `page_id` parameter. -/
theorem C9_object_key_category_for_page_id :
    (_download_and_store_media_parallel proxyAllOn defaultMediaConfig benignMediaEnv 7
        "http://example.test/pic.jpg" smallOkResp).objectName
      = some "page_image/99_h.jpg" ∧
    strStartsWith "page_image/99_h.jpg" ("page_" ++ toString (7 : Nat) ++ "/") = false ∧
    strStartsWith "page_image/99_h.jpg" "page_image/" = true ∧
    _generate_minio_object_name benignMediaEnv.md5Hex 99 "http://example.test/pic.jpg"
        (toString (7 : Nat)) = "page_7/99_h.jpg" := by
  refine ⟨?_, by decide, by decide, ?_⟩ <;> decide

/-! ## Parsed pages and extraction
(`_extract_links_from_page`, `mcp_engine.py:1208-1219`, and the
media-reference collection of `_extract_all_media_files_parallel`,
`mcp_engine.py:1410-1470`) -/

/-- The DOM elements the extractors inspect, in document order: `<img src>`,
`<video src>`, `<source src type=...>`, `<audio src>`, `<a href>text</a>`. -/
inductive DomElem
  | img (src : String)
  | video (src : String)
  | sourceTag (src : String) (typeAttr : String)
  | audioTag (src : String)
  | anchor (href : String) (text : String)
deriving DecidableEq, Repr

/-- `soup.find_all('a', href=True)`: the anchor hrefs in document order. -/
def anchorHrefs (doc : List DomElem) : List String :=
  doc.filterMap fun e =>
    match e with
    | .anchor h _ => some h
    | _ => none

/-- `AIResearchCrawler._extract_links_from_page` (`mcp_engine.py:1208-1219`):
resolve every anchor href against the page URL, keep those that start with
`http://` or `https://`, and de-duplicate via `list(set(links))`.  No
condition on the link's host appears anywhere in this function. -/
def _extract_links_from_page (doc : List DomElem) (base_url : String) : List String :=
  pySetList (((anchorHrefs doc).map (urljoinModel base_url)).filter
    (fun u => strStartsWith u "http://" || strStartsWith u "https://"))

/-- The document extensions recognised for downloadable files
(`mcp_engine.py:1459`). -/
def fileExtensions : List String := [".pdf", ".doc", ".docx", ".txt", ".zip", ".rar"]

/-- The media-reference collection loop of
`AIResearchCrawler._extract_all_media_files_parallel`
(`mcp_engine.py:1410-1470`): all `<img src>` in document order, then all
`<video src>`/`<source src>`, then all `<audio src>` and `<source>` whose
type attribute contains `audio`, then all anchors whose lower-cased href
contains a document extension; each src/href is resolved against the page
URL.  The result pairs each reference with its assigned category. -/
def extractAllMediaRefs (pageUrl : String) (doc : List DomElem) : List (String × String) :=
  let imgs := doc.filterMap fun e =>
    match e with
    | .img s => some s
    | _ => none
  let vids := doc.filterMap fun e =>
    match e with
    | .video s => some s
    | .sourceTag s _ => some s
    | _ => none
  let auds := doc.filterMap fun e =>
    match e with
    | .audioTag s => some s
    | .sourceTag s t => if strContainsSub t "audio" then some s else none
    | _ => none
  let docRefs := doc.filterMap fun e =>
    match e with
    | .anchor h _ =>
      if fileExtensions.any (fun ext => strContainsSub (pyLower h) ext) then some h
      else none
    | _ => none
  (imgs.map fun s => (urljoinModel pageUrl s, "image"))
    ++ (vids.map fun s => (urljoinModel pageUrl s, "video"))
    ++ (auds.map fun s => (urljoinModel pageUrl s, "audio"))
    ++ (docRefs.map fun h => (urljoinModel pageUrl h, "document"))

/-! ## The site crawl worker
(`AIResearchCrawler._crawl_single_site`, `mcp_engine.py:947-1041`) -/

/-- Crawl configuration: `CRAWL_DEPTH`, `MAX_PAGES_PER_SITE`
(`mcp_engine.py:168-169`) and the proxy state. -/
structure CrawlConfig where
  crawlDepth : Nat
  maxPagesPerSite : Nat
  proxy : ProxyConfig
deriving Repr

/-- The oracle-supplied outcome of fetching and processing one URL inside
the worker loop body (`mcp_engine.py:980-1032`):
* `requestError` — `session.get`/`raise_for_status` raises
  (`requests.exceptions.RequestException`, caught at line 1026): nothing
  stored, `continue`;
* `processError` — an exception between parsing and the page commit (the
  generic handler at line 1029 rolls the transaction back): nothing stored,
  `continue`;
* `pageOk doc linkExtractRaises mediaCallFails` — the Page row commits
  (line 1004) with the parsed document `doc`; `mediaCallFails` says the
  media call (lines 1009-1013, in its own try/except) fails;
  `linkExtractRaises` says `_extract_links_from_page` raises (line 1017,
  e.g. `urljoin` raising `ValueError` on a malformed href), which the
  line-1029 handler catches after the commit, skipping the counter
  increment at line 1020. -/
inductive FetchOutcome
  | requestError
  | processError
  | pageOk (doc : List DomElem) (linkExtractRaises : Bool) (mediaCallFails : Bool)
deriving DecidableEq, Repr

/-- The worker's per-site state together with its externally visible
effects: the site-local visited set, the FIFO frontier of `(url, depth)`
entries, the `pages_crawled` counter, the Page rows committed this crawl
(url, depth, in insertion order), the page-fetch GETs issued (line 984),
the media-pipeline GETs issued (line 1071, one per media invocation that
reaches the download), and the media-pipeline invocations
`(page row number, media_url argument)` (line 1010). -/
structure CrawlState where
  visited : List String
  frontier : List (String × Nat)
  pagesCrawled : Nat
  storedPages : List (String × Nat)
  pageGets : List String
  mediaGets : List String
  mediaInvocations : List (Nat × String)
deriving DecidableEq, Repr

/-- Whether the media call on a stored page issues an HTTP GET for its
`media_url` argument: `_download_and_store_media_parallel` validates the
URL scheme (line 1049), de-duplicates against rows of the *new* page id
(line 1054 — always empty for a freshly inserted page), selects a session
(line 1063), and only then issues the GET (line 1071). -/
def mediaCallIssuesGet (pc : ProxyConfig) (url : String) : Bool :=
  (strStartsWith url "http://" || strStartsWith url "https://")
    && (get_appropriate_session pc url).isSome

/-- The committed effects of a successfully fetched and parsed page
(`mcp_engine.py:994-1013`): the Page row is inserted, the media pipeline is
invoked once with the page's own URL (line 1010 passes `current_url`), and
that invocation issues its GET exactly when `mediaCallIssuesGet` holds. -/
def crawlCommit (cfg : CrawlConfig) (url : String) (depth : Nat) (s2 : CrawlState) :
    CrawlState :=
  { s2 with
    storedPages := s2.storedPages ++ [(url, depth)],
    mediaInvocations := s2.mediaInvocations ++ [(s2.storedPages.length + 1, url)],
    mediaGets :=
      if mediaCallIssuesGet cfg.proxy url then s2.mediaGets ++ [url]
      else s2.mediaGets }

/-- The body of one loop iteration after the visited/depth guard
(`mcp_engine.py:980-1032`), dispatching on the oracle outcome.  On `pageOk`
the page commits (`crawlCommit`); if `depth < CRAWL_DEPTH` the extracted
links are appended to the frontier at `depth+1` and the counter increments
— unless link extraction raises, in which case the handler at line 1029
skips both the append and the increment at line 1020. -/
def crawlProcessOutcome (cfg : CrawlConfig) (o : FetchOutcome)
    (url : String) (depth : Nat) (s2 : CrawlState) : CrawlState :=
  match o with
  | .requestError => s2
  | .processError => s2
  | .pageOk doc linkExtractRaises _ =>
    if depth < cfg.crawlDepth then
      if linkExtractRaises then crawlCommit cfg url depth s2
      else
        { crawlCommit cfg url depth s2 with
          frontier := s2.frontier
            ++ (_extract_links_from_page doc url).map (fun l => (l, depth + 1)),
          pagesCrawled := s2.pagesCrawled + 1 }
    else { crawlCommit cfg url depth s2 with pagesCrawled := s2.pagesCrawled + 1 }

def crawlProcess (cfg : CrawlConfig) (plan : String → FetchOutcome)
    (url : String) (depth : Nat) (s2 : CrawlState) : CrawlState :=
  crawlProcessOutcome cfg (plan url) url depth s2

/-- One iteration of the worker's while loop (`mcp_engine.py:972-1032`):
pop the head frontier entry; skip it when already visited or deeper than
`CRAWL_DEPTH` (line 975); otherwise mark visited (line 978), GET the page
(line 984), and process the outcome via `crawlProcess`. -/
def crawlStep (cfg : CrawlConfig) (plan : String → FetchOutcome) (s : CrawlState) :
    CrawlState :=
  match s.frontier with
  | [] => s
  | (url, depth) :: rest =>
    if s.visited.contains url || depth > cfg.crawlDepth then { s with frontier := rest }
    else
      crawlProcess cfg plan url depth
        { s with frontier := rest, visited := s.visited ++ [url],
                 pageGets := s.pageGets ++ [url] }

/-- The worker's while loop (`while pages_to_crawl and pages_crawled <
MAX_PAGES_PER_SITE`, `mcp_engine.py:972`), fuel-bounded. -/
def crawlLoop (cfg : CrawlConfig) (plan : String → FetchOutcome) :
    Nat → CrawlState → CrawlState
  | 0, s => s
  | fuel + 1, s =>
    match s.frontier with
    | [] => s
    | _ :: _ =>
      if s.pagesCrawled < cfg.maxPagesPerSite then
        crawlLoop cfg plan fuel (crawlStep cfg plan s)
      else s

/-- The state a site crawl starts from: empty visited set, the seed at
depth 0, zero pages crawled, no effects yet (`mcp_engine.py:968-970`). -/
def initialCrawlState (siteUrl : String) : CrawlState :=
  { visited := [], frontier := [(siteUrl, 0)], pagesCrawled := 0,
    storedPages := [], pageGets := [], mediaGets := [], mediaInvocations := [] }

/-- `AIResearchCrawler._crawl_single_site` (`mcp_engine.py:947-1041`): if
no proxy session is available for the seed the worker returns before the
loop (lines 959-966) with no effects; otherwise it runs the loop. -/
def _crawl_single_site (cfg : CrawlConfig) (plan : String → FetchOutcome)
    (siteUrl : String) (fuel : Nat) : CrawlState :=
  match get_appropriate_session cfg.proxy siteUrl with
  | none => { initialCrawlState siteUrl with frontier := [] }
  | some _ => crawlLoop cfg plan fuel (initialCrawlState siteUrl)

/-! ## Invariants of the worker loop -/

@[simp] theorem crawlCommit_storedPages (cfg : CrawlConfig) (url : String)
    (depth : Nat) (s2 : CrawlState) :
    (crawlCommit cfg url depth s2).storedPages = s2.storedPages ++ [(url, depth)] := rfl

@[simp] theorem crawlCommit_pagesCrawled (cfg : CrawlConfig) (url : String)
    (depth : Nat) (s2 : CrawlState) :
    (crawlCommit cfg url depth s2).pagesCrawled = s2.pagesCrawled := rfl

@[simp] theorem crawlCommit_frontier (cfg : CrawlConfig) (url : String)
    (depth : Nat) (s2 : CrawlState) :
    (crawlCommit cfg url depth s2).frontier = s2.frontier := rfl

@[simp] theorem crawlCommit_visited (cfg : CrawlConfig) (url : String)
    (depth : Nat) (s2 : CrawlState) :
    (crawlCommit cfg url depth s2).visited = s2.visited := rfl

@[simp] theorem crawlCommit_pageGets (cfg : CrawlConfig) (url : String)
    (depth : Nat) (s2 : CrawlState) :
    (crawlCommit cfg url depth s2).pageGets = s2.pageGets := rfl

@[simp] theorem crawlCommit_mediaGets (cfg : CrawlConfig) (url : String)
    (depth : Nat) (s2 : CrawlState) :
    (crawlCommit cfg url depth s2).mediaGets
      = (if mediaCallIssuesGet cfg.proxy url then s2.mediaGets ++ [url]
         else s2.mediaGets) := rfl

@[simp] theorem crawlCommit_mediaInvocations (cfg : CrawlConfig) (url : String)
    (depth : Nat) (s2 : CrawlState) :
    (crawlCommit cfg url depth s2).mediaInvocations
      = s2.mediaInvocations ++ [(s2.storedPages.length + 1, url)] := rfl

/-- Every Page row present after processing one URL either was already
stored or was stored at that URL's depth. -/
theorem crawlProcess_depth_le (cfg : CrawlConfig) (plan : String → FetchOutcome)
    (url : String) (depth : Nat) (s2 : CrawlState)
    (h : ∀ p ∈ s2.storedPages, p.2 ≤ cfg.crawlDepth) (hdep : depth ≤ cfg.crawlDepth) :
    ∀ p ∈ (crawlProcess cfg plan url depth s2).storedPages, p.2 ≤ cfg.crawlDepth := by
  unfold crawlProcess crawlProcessOutcome
  split
  · exact h
  · exact h
  · repeat' split
    all_goals
      intro p hp
      simp only [crawlCommit_storedPages, List.mem_append, List.mem_singleton] at hp
      rcases hp with hp | rfl
      · exact h p hp
      · exact hdep

/-- Every Page row inserted by one step was inserted at a depth within
`CRAWL_DEPTH`: insertion only happens after the guard at line 975 has
ruled out `depth > CRAWL_DEPTH`. -/
theorem crawlStep_depth_le (cfg : CrawlConfig) (plan : String → FetchOutcome)
    (s : CrawlState) (h : ∀ p ∈ s.storedPages, p.2 ≤ cfg.crawlDepth) :
    ∀ p ∈ (crawlStep cfg plan s).storedPages, p.2 ≤ cfg.crawlDepth := by
  unfold crawlStep
  split
  · exact h
  rename_i url depth rest hf
  split
  · exact h
  rename_i hguard
  have hdep : depth ≤ cfg.crawlDepth := by
    simp only [Bool.or_eq_true, not_or, decide_eq_true_eq] at hguard
    have h2 := hguard.2
    omega
  exact crawlProcess_depth_le cfg plan url depth _ h hdep

/-- Depth invariant carried through the whole loop. -/
theorem crawlLoop_depth_le (cfg : CrawlConfig) (plan : String → FetchOutcome) :
    ∀ (fuel : Nat) (s : CrawlState),
      (∀ p ∈ s.storedPages, p.2 ≤ cfg.crawlDepth) →
      ∀ p ∈ (crawlLoop cfg plan fuel s).storedPages, p.2 ≤ cfg.crawlDepth := by
  intro fuel
  induction fuel with
  | zero => intro s h; exact h
  | succ n ih =>
    intro s h
    unfold crawlLoop
    split
    · exact h
    split
    · exact ih _ (crawlStep_depth_le cfg plan s h)
    · exact h

/-- Processing one URL increments the page counter by at most one. -/
theorem crawlProcess_pagesCrawled_le (cfg : CrawlConfig) (plan : String → FetchOutcome)
    (url : String) (depth : Nat) (s2 : CrawlState) :
    (crawlProcess cfg plan url depth s2).pagesCrawled ≤ s2.pagesCrawled + 1 := by
  unfold crawlProcess crawlProcessOutcome
  split
  · omega
  · omega
  · repeat' split
    all_goals simp

/-- One step increments the page counter by at most one. -/
theorem crawlStep_pagesCrawled_le (cfg : CrawlConfig) (plan : String → FetchOutcome)
    (s : CrawlState) :
    (crawlStep cfg plan s).pagesCrawled ≤ s.pagesCrawled + 1 := by
  unfold crawlStep
  split
  · omega
  split
  · simp
  exact crawlProcess_pagesCrawled_le cfg plan _ _ _

/-- The loop guard keeps the page counter within `MAX_PAGES_PER_SITE`. -/
theorem crawlLoop_pagesCrawled_le (cfg : CrawlConfig) (plan : String → FetchOutcome) :
    ∀ (fuel : Nat) (s : CrawlState),
      s.pagesCrawled ≤ cfg.maxPagesPerSite →
      (crawlLoop cfg plan fuel s).pagesCrawled ≤ cfg.maxPagesPerSite := by
  intro fuel
  induction fuel with
  | zero => intro s h; exact h
  | succ n ih =>
    intro s h
    unfold crawlLoop
    split
    · exact h
    split
    · rename_i hlt
      refine ih _ ?_
      have := crawlStep_pagesCrawled_le cfg plan s
      omega
    · exact h

/-- Outcomes in which link extraction cannot raise after the page commit. -/
def outcomeNoExtractRaise : FetchOutcome → Bool
  | .pageOk _ true _ => false
  | _ => true

/-- A plan with no post-commit link-extraction failure anywhere. -/
def planNoExtractRaise (plan : String → FetchOutcome) : Prop :=
  ∀ u, outcomeNoExtractRaise (plan u) = true

/-- Under a plan without post-commit failures, every insertion during
processing is matched by a counter increment. -/
theorem crawlProcess_stored_le_pc (cfg : CrawlConfig) (plan : String → FetchOutcome)
    (hplan : planNoExtractRaise plan) (url : String) (depth : Nat) (s2 : CrawlState)
    (h : s2.storedPages.length ≤ s2.pagesCrawled) :
    (crawlProcess cfg plan url depth s2).storedPages.length
      ≤ (crawlProcess cfg plan url depth s2).pagesCrawled := by
  unfold crawlProcess crawlProcessOutcome
  split
  · exact h
  · exact h
  · rename_i doc lr mf hplanu
    cases lr with
    | true =>
      exfalso
      have hc := hplan url
      rw [hplanu] at hc
      simp [outcomeNoExtractRaise] at hc
    | false =>
      repeat' split
      all_goals simp_all

/-- Under a plan without post-commit failures, every insertion is matched
by a counter increment. -/
theorem crawlStep_stored_le_pc (cfg : CrawlConfig) (plan : String → FetchOutcome)
    (hplan : planNoExtractRaise plan) (s : CrawlState)
    (h : s.storedPages.length ≤ s.pagesCrawled) :
    (crawlStep cfg plan s).storedPages.length ≤ (crawlStep cfg plan s).pagesCrawled := by
  unfold crawlStep
  split
  · exact h
  split
  · exact h
  exact crawlProcess_stored_le_pc cfg plan hplan _ _ _ h

/-- Processing never increments the counter without having committed the
row: the increment at line 1020 is reached only after the commit at line
1004 in the same iteration. -/
theorem crawlProcess_pc_le_stored (cfg : CrawlConfig) (plan : String → FetchOutcome)
    (url : String) (depth : Nat) (s2 : CrawlState)
    (h : s2.pagesCrawled ≤ s2.storedPages.length) :
    (crawlProcess cfg plan url depth s2).pagesCrawled
      ≤ (crawlProcess cfg plan url depth s2).storedPages.length := by
  unfold crawlProcess crawlProcessOutcome
  split
  · exact h
  · exact h
  · repeat' split
    all_goals
      simp
      omega

/-- For every plan, the counter never exceeds the number of committed Page
rows. -/
theorem crawlStep_pc_le_stored (cfg : CrawlConfig) (plan : String → FetchOutcome)
    (s : CrawlState) (h : s.pagesCrawled ≤ s.storedPages.length) :
    (crawlStep cfg plan s).pagesCrawled ≤ (crawlStep cfg plan s).storedPages.length := by
  unfold crawlStep
  split
  · exact h
  split
  · exact h
  exact crawlProcess_pc_le_stored cfg plan _ _ _ h

/-- Loop version of `crawlStep_stored_le_pc`. -/
theorem crawlLoop_stored_le_pc (cfg : CrawlConfig) (plan : String → FetchOutcome)
    (hplan : planNoExtractRaise plan) :
    ∀ (fuel : Nat) (s : CrawlState),
      s.storedPages.length ≤ s.pagesCrawled →
      (crawlLoop cfg plan fuel s).storedPages.length
        ≤ (crawlLoop cfg plan fuel s).pagesCrawled := by
  intro fuel
  induction fuel with
  | zero => intro s h; exact h
  | succ n ih =>
    intro s h
    unfold crawlLoop
    split
    · exact h
    split
    · exact ih _ (crawlStep_stored_le_pc cfg plan hplan s h)
    · exact h

/-- Loop version of `crawlStep_pc_le_stored`. -/
theorem crawlLoop_pc_le_stored (cfg : CrawlConfig) (plan : String → FetchOutcome) :
    ∀ (fuel : Nat) (s : CrawlState),
      s.pagesCrawled ≤ s.storedPages.length →
      (crawlLoop cfg plan fuel s).pagesCrawled
        ≤ (crawlLoop cfg plan fuel s).storedPages.length := by
  intro fuel
  induction fuel with
  | zero => intro s h; exact h
  | succ n ih =>
    intro s h
    unfold crawlLoop
    split
    · exact h
    split
    · exact ih _ (crawlStep_pc_le_stored cfg plan s h)
    · exact h

/-- The visited-set invariant tying the GET logs together: page GETs are
pairwise distinct, every page GET went to a URL already marked visited, and
every media GET re-fetches a URL that was page-fetched. -/
def GetInvariant (s : CrawlState) : Prop :=
  s.pageGets.Nodup ∧ (∀ u ∈ s.pageGets, u ∈ s.visited) ∧
    (∀ u ∈ s.mediaGets, u ∈ s.pageGets)

/-- Processing one URL preserves the GET invariant (the only GET it can add
is the media pipeline's GET of the page's own, already page-fetched,
URL). -/
theorem crawlProcess_get_invariant (cfg : CrawlConfig) (plan : String → FetchOutcome)
    (url : String) (depth : Nat) (s2 : CrawlState)
    (hu : url ∈ s2.pageGets) (hinv : GetInvariant s2) :
    GetInvariant (crawlProcess cfg plan url depth s2) := by
  obtain ⟨h1, h2, h3⟩ := hinv
  have hmg : ∀ u ∈ (if mediaCallIssuesGet cfg.proxy url
      then s2.mediaGets ++ [url] else s2.mediaGets), u ∈ s2.pageGets := by
    intro u hum
    split at hum
    · rcases List.mem_append.mp hum with hm | hm
      · exact h3 u hm
      · simp only [List.mem_singleton] at hm
        subst hm
        exact hu
    · exact h3 u hum
  unfold crawlProcess crawlProcessOutcome
  split
  · exact ⟨h1, h2, h3⟩
  · exact ⟨h1, h2, h3⟩
  · repeat' split
    all_goals
      refine ⟨h1, h2, ?_⟩
      simpa using hmg

/-- One loop iteration preserves the GET invariant: a URL is page-fetched
only after the visited check at line 975 has excluded it and it is marked
visited at line 978 before the GET at line 984. -/
theorem crawlStep_get_invariant (cfg : CrawlConfig) (plan : String → FetchOutcome)
    (s : CrawlState) (hinv : GetInvariant s) :
    GetInvariant (crawlStep cfg plan s) := by
  obtain ⟨h1, h2, h3⟩ := hinv
  unfold crawlStep
  split
  · exact ⟨h1, h2, h3⟩
  rename_i url depth rest hf
  split
  · exact ⟨h1, h2, h3⟩
  rename_i hguard
  simp only [Bool.or_eq_true, not_or, decide_eq_true_eq] at hguard
  have hnv : url ∉ s.visited := by
    intro hmem
    have hc : s.visited.contains url = true := by simpa using hmem
    exact absurd hc (by simpa using hguard.1)
  have hnp : url ∉ s.pageGets := fun hmem => hnv (h2 url hmem)
  refine crawlProcess_get_invariant cfg plan url depth _ ?_ ⟨?_, ?_, ?_⟩
  · simp
  · simpa [List.nodup_append] using ⟨h1, hnp⟩
  · intro u hum
    simp only [List.mem_append, List.mem_singleton] at hum ⊢
    rcases hum with hm | rfl
    · exact Or.inl (h2 u hm)
    · exact Or.inr rfl
  · intro u hum
    simp only [List.mem_append, List.mem_singleton]
    exact Or.inl (h3 u hum)

/-- Loop version of the GET invariant. -/
theorem crawlLoop_get_invariant (cfg : CrawlConfig) (plan : String → FetchOutcome) :
    ∀ (fuel : Nat) (s : CrawlState), GetInvariant s →
      GetInvariant (crawlLoop cfg plan fuel s) := by
  intro fuel
  induction fuel with
  | zero => intro s h; exact h
  | succ n ih =>
    intro s h
    unfold crawlLoop
    split
    · exact h
    split
    · exact ih _ (crawlStep_get_invariant cfg plan s h)
    · exact h

/-- Erase the media-failure component of an outcome (everything the worker
loop actually inspects is preserved). -/
def stripMediaFlag : FetchOutcome → FetchOutcome
  | .pageOk doc lr _ => .pageOk doc lr false
  | o => o

/-- The loop body never inspects the media-failure flag: the media call
sits in its own `try/except` (`mcp_engine.py:1009-1013`) and its outcome
reaches nothing else. -/
theorem crawlProcessOutcome_stripMediaFlag (cfg : CrawlConfig) (o : FetchOutcome)
    (url : String) (depth : Nat) (s2 : CrawlState) :
    crawlProcessOutcome cfg (stripMediaFlag o) url depth s2
      = crawlProcessOutcome cfg o url depth s2 := by
  cases o <;> rfl

/-- Two plans that agree up to media failure drive one iteration to the
same state. -/
theorem crawlStep_media_congr (cfg : CrawlConfig)
    (plan plan' : String → FetchOutcome)
    (hsame : ∀ u, stripMediaFlag (plan u) = stripMediaFlag (plan' u))
    (s : CrawlState) :
    crawlStep cfg plan s = crawlStep cfg plan' s := by
  unfold crawlStep
  split
  · rfl
  split
  · rfl
  rename_i url depth rest hf hguard
  show crawlProcessOutcome cfg (plan url) url depth _
      = crawlProcessOutcome cfg (plan' url) url depth _
  rw [← crawlProcessOutcome_stripMediaFlag cfg (plan url),
    hsame url, crawlProcessOutcome_stripMediaFlag]

/-- Two plans that agree up to media failure drive the whole loop to the
same state. -/
theorem crawlLoop_media_congr (cfg : CrawlConfig)
    (plan plan' : String → FetchOutcome)
    (hsame : ∀ u, stripMediaFlag (plan u) = stripMediaFlag (plan' u)) :
    ∀ (fuel : Nat) (s : CrawlState),
      crawlLoop cfg plan fuel s = crawlLoop cfg plan' fuel s := by
  intro fuel
  induction fuel with
  | zero => intro s; rfl
  | succ n ih =>
    intro s
    unfold crawlLoop
    split
    · rfl
    split
    · rw [crawlStep_media_congr cfg plan plan' hsame s, ih]
    · rfl

/-- Processing preserves the correspondence between media-pipeline
invocations and committed pages: exactly one invocation per committed row,
with the page's own URL as the `media_url` argument. -/
theorem crawlProcess_mediaInv (cfg : CrawlConfig) (plan : String → FetchOutcome)
    (url : String) (depth : Nat) (s2 : CrawlState)
    (h : s2.mediaInvocations.map Prod.snd = s2.storedPages.map Prod.fst) :
    (crawlProcess cfg plan url depth s2).mediaInvocations.map Prod.snd
      = (crawlProcess cfg plan url depth s2).storedPages.map Prod.fst := by
  unfold crawlProcess crawlProcessOutcome
  split
  · exact h
  · exact h
  · repeat' split
    all_goals simp [h]

/-- One iteration preserves the invocation/page correspondence. -/
theorem crawlStep_mediaInv (cfg : CrawlConfig) (plan : String → FetchOutcome)
    (s : CrawlState)
    (h : s.mediaInvocations.map Prod.snd = s.storedPages.map Prod.fst) :
    (crawlStep cfg plan s).mediaInvocations.map Prod.snd
      = (crawlStep cfg plan s).storedPages.map Prod.fst := by
  unfold crawlStep
  split
  · exact h
  split
  · exact h
  exact crawlProcess_mediaInv cfg plan _ _ _ h

/-- Loop version of the invocation/page correspondence. -/
theorem crawlLoop_mediaInv (cfg : CrawlConfig) (plan : String → FetchOutcome) :
    ∀ (fuel : Nat) (s : CrawlState),
      s.mediaInvocations.map Prod.snd = s.storedPages.map Prod.fst →
      (crawlLoop cfg plan fuel s).mediaInvocations.map Prod.snd
        = (crawlLoop cfg plan fuel s).storedPages.map Prod.fst := by
  intro fuel
  induction fuel with
  | zero => intro s h; exact h
  | succ n ih =>
    intro s h
    unfold crawlLoop
    split
    · exact h
    split
    · exact ih _ (crawlStep_mediaInv cfg plan s h)
    · exact h

/-- Membership in the extracted links is determined by the anchor hrefs and
the URL scheme alone — no condition on the link's host. -/
theorem mem_extract_links (doc : List DomElem) (base u : String) :
    u ∈ _extract_links_from_page doc base ↔
      ((∃ href ∈ anchorHrefs doc, u = urljoinModel base href) ∧
        (strStartsWith u "http://" || strStartsWith u "https://") = true) := by
  unfold _extract_links_from_page
  rw [mem_pySetList]
  simp only [List.mem_filter, List.mem_map]
  constructor
  · rintro ⟨⟨href, hmem, rfl⟩, hs⟩
    exact ⟨⟨href, hmem, rfl⟩, hs⟩
  · rintro ⟨⟨href, hmem, rfl⟩, hs⟩
    exact ⟨⟨href, hmem, rfl⟩, hs⟩

/-! ## Concrete crawl plans -/

/-- Build a plan from an association list; URLs not listed fail their
request (the oracle's default). -/
def planOfList (l : List (String × FetchOutcome)) : String → FetchOutcome :=
  fun u => (l.lookup u).getD .requestError

/-- A plan built from a list all of whose outcomes are free of post-commit
link-extraction failures has no such failure anywhere. -/
theorem planOfList_noExtractRaise (l : List (String × FetchOutcome))
    (hl : l.all (fun e => outcomeNoExtractRaise e.2) = true) :
    planNoExtractRaise (planOfList l) := by
  induction l with
  | nil => intro u; simp [planOfList, outcomeNoExtractRaise]
  | cons e rest ih =>
    obtain ⟨k, v⟩ := e
    simp only [List.all_cons, Bool.and_eq_true] at hl
    intro u
    simp only [planOfList, List.lookup]
    split
    · simpa using hl.1
    · exact ih hl.2 u

/-! ## Claims about the site crawl worker -/

def seed3 : String := "http://c3.test/"

def doc3 : List DomElem :=
  [.anchor "http://c3.test/a" "", .anchor "http://c3.test/b" ""]

/-- A plan whose page `/a` commits and then fails link extraction. -/
def plan3 : String → FetchOutcome := planOfList
  [("http://c3.test/", .pageOk doc3 false false),
   ("http://c3.test/a", .pageOk [] true false),
   ("http://c3.test/b", .pageOk [] false false)]

def cfg3 : CrawlConfig :=
  { crawlDepth := 2, maxPagesPerSite := 2, proxy := proxyAllOn }

/-- C3 counterexample: with `MAX_PAGES_PER_SITE = 2`, a crawl in which page
`/a` commits its Page row and then raises during link extraction (so the
counter at line 1020 is skipped) stores three Page rows — the page cap is
not hard. -/
theorem C3_page_cap_counterexample :
    cfg3.maxPagesPerSite = 2 ∧
    (_crawl_single_site cfg3 plan3 seed3 5).storedPages.length = 3 := by
  constructor
  · rfl
  · decide

/-- C3 (amended): no Page row is ever inserted with depth exceeding
`CRAWL_DEPTH`; and provided no exception strikes between a page's commit
and the counter increment (no post-commit link-extraction failure), no
site crawl stores more than `MAX_PAGES_PER_SITE` Page rows. -/
theorem C3_depth_and_page_caps (cfg : CrawlConfig) (plan : String → FetchOutcome)
    (siteUrl : String) (fuel : Nat) :
    (∀ p ∈ (_crawl_single_site cfg plan siteUrl fuel).storedPages,
        p.2 ≤ cfg.crawlDepth)
    ∧ (planNoExtractRaise plan →
        (_crawl_single_site cfg plan siteUrl fuel).storedPages.length
          ≤ cfg.maxPagesPerSite) := by
  constructor
  · unfold _crawl_single_site
    split
    · intro p hp
      simp [initialCrawlState] at hp
    · exact crawlLoop_depth_le cfg plan fuel _ (by simp [initialCrawlState])
  · intro hplan
    unfold _crawl_single_site
    split
    · simp [initialCrawlState]
    · have h1 := crawlLoop_stored_le_pc cfg plan hplan fuel (initialCrawlState siteUrl)
        (by simp [initialCrawlState])
      have h2 := crawlLoop_pagesCrawled_le cfg plan fuel (initialCrawlState siteUrl)
        (by simp [initialCrawlState])
      omega

def planW3 : String → FetchOutcome := planOfList
  [("http://c3.test/", .pageOk doc3 false false),
   ("http://c3.test/a", .pageOk [] false false),
   ("http://c3.test/b", .pageOk [] false false)]

/-- Witness for the amended C3 at a concrete clean plan. -/
theorem C3_depth_and_page_caps_witness :
    (∀ p ∈ (_crawl_single_site cfg3 planW3 seed3 5).storedPages,
        p.2 ≤ cfg3.crawlDepth)
    ∧ (_crawl_single_site cfg3 planW3 seed3 5).storedPages.length
        ≤ cfg3.maxPagesPerSite :=
  ⟨(C3_depth_and_page_caps cfg3 planW3 seed3 5).1,
   (C3_depth_and_page_caps cfg3 planW3 seed3 5).2
     (planOfList_noExtractRaise _ (by decide))⟩

def seed4 : String := "http://c4.test/"

def plan4 : String → FetchOutcome := planOfList
  [("http://c4.test/", .pageOk [] false false)]

def cfg4 : CrawlConfig :=
  { crawlDepth := 1, maxPagesPerSite := 5, proxy := proxyAllOn }

/-- C4 counterexample: crawling a one-page site issues two HTTP GETs for
the seed URL — the page fetch at line 984 and the media pipeline's GET at
line 1071, because line 1010 invokes the pipeline on the page's own URL. -/
theorem C4_double_get_counterexample :
    ((_crawl_single_site cfg4 plan4 seed4 3).pageGets
        ++ (_crawl_single_site cfg4 plan4 seed4 3).mediaGets).count "http://c4.test/"
      = 2 := by
  decide

/-- C4 (amended): each frontier entry is popped for processing at most once
(the site-local visited set makes the page-fetch GET log duplicate-free),
so no URL is fetched twice as a page; the only repeated fetches are the
media pipeline's single extra GET of a page-fetched URL. -/
theorem C4_no_duplicate_page_fetch (cfg : CrawlConfig)
    (plan : String → FetchOutcome) (siteUrl : String) (fuel : Nat) :
    (_crawl_single_site cfg plan siteUrl fuel).pageGets.Nodup
    ∧ (∀ u ∈ (_crawl_single_site cfg plan siteUrl fuel).mediaGets,
        u ∈ (_crawl_single_site cfg plan siteUrl fuel).pageGets) := by
  have hinit : GetInvariant (initialCrawlState siteUrl) := by
    refine ⟨?_, ?_, ?_⟩ <;> simp [initialCrawlState]
  unfold _crawl_single_site
  split
  · exact ⟨by simp [initialCrawlState], by simp [initialCrawlState]⟩
  · have h := crawlLoop_get_invariant cfg plan fuel _ hinit
    exact ⟨h.1, h.2.2⟩

def seed2 : String := "http://c2.test/"

def doc2 : List DomElem :=
  [.img "http://c2.test/pic1.jpg", .img "http://c2.test/pic2.png"]

def plan2 : String → FetchOutcome := planOfList
  [("http://c2.test/", .pageOk doc2 false false)]

def cfg2 : CrawlConfig :=
  { crawlDepth := 1, maxPagesPerSite := 5, proxy := proxyAllOn }

/-- C2 counterexample: for a stored page whose document carries two image
references, the worker invokes the media routine once, with the page's own
URL — not once per extracted media reference. -/
theorem C2_per_reference_counterexample :
    (_crawl_single_site cfg2 plan2 seed2 3).mediaInvocations.map Prod.snd
      = ["http://c2.test/"]
    ∧ (extractAllMediaRefs seed2 doc2).map Prod.fst
      = ["http://c2.test/pic1.jpg", "http://c2.test/pic2.png"]
    ∧ (_crawl_single_site cfg2 plan2 seed2 3).mediaInvocations.map Prod.snd
        ≠ (extractAllMediaRefs seed2 doc2).map Prod.fst := by
  refine ⟨by decide, by decide, by decide⟩

/-- C2 (amended): for every page stored by the site crawl worker the media
download routine is invoked exactly once, with the page's own URL as the
`media_url` argument (one invocation per stored row, in order); and a media
failure never fails the page — the entire crawl state is unchanged under
any change of the media outcomes. -/
theorem C2_media_once_per_page (cfg : CrawlConfig)
    (plan plan' : String → FetchOutcome) (siteUrl : String) (fuel : Nat)
    (hsame : ∀ u, stripMediaFlag (plan u) = stripMediaFlag (plan' u)) :
    _crawl_single_site cfg plan siteUrl fuel = _crawl_single_site cfg plan' siteUrl fuel
    ∧ (_crawl_single_site cfg plan siteUrl fuel).mediaInvocations.map Prod.snd
        = (_crawl_single_site cfg plan siteUrl fuel).storedPages.map Prod.fst := by
  constructor
  · unfold _crawl_single_site
    split
    · rfl
    · exact crawlLoop_media_congr cfg plan plan' hsame fuel _
  · unfold _crawl_single_site
    split
    · simp [initialCrawlState]
    · exact crawlLoop_mediaInv cfg plan fuel _ (by simp [initialCrawlState])

def planC2b : String → FetchOutcome := planOfList
  [("http://c2.test/", .pageOk doc2 false true)]

/-- Witness for the amended C2: `plan2` and `planC2b` differ exactly in the
media outcome of the seed page, and the run is unchanged. -/
theorem C2_media_once_per_page_witness :
    _crawl_single_site cfg2 plan2 seed2 3 = _crawl_single_site cfg2 planC2b seed2 3
    ∧ (_crawl_single_site cfg2 plan2 seed2 3).mediaInvocations.map Prod.snd
        = (_crawl_single_site cfg2 plan2 seed2 3).storedPages.map Prod.fst :=
  C2_media_once_per_page cfg2 plan2 planC2b seed2 3 (by
    intro u
    simp only [plan2, planC2b, planOfList, List.lookup]
    split
    · rfl
    · rfl)

def seed6 : String := "http://seed6.test/"

def doc6 : List DomElem :=
  [.anchor "http://seed6.test/a" "", .anchor "http://other6.test/b" ""]

def plan6 : String → FetchOutcome := planOfList
  [("http://seed6.test/", .pageOk doc6 false false),
   ("http://seed6.test/a", .pageOk [] false false),
   ("http://other6.test/b", .pageOk [] false false)]

def cfg6 : CrawlConfig :=
  { crawlDepth := 1, maxPagesPerSite := 10, proxy := proxyAllOn }

/-- C6 counterexample: a seed serving one same-host link and one
different-host link gets the different-host URL enqueued and fetched — a
Page row exists for it at depth 1 even though its host differs from the
seed's. -/
theorem C6_external_link_counterexample :
    ("http://other6.test/b", 1) ∈ (_crawl_single_site cfg6 plan6 seed6 6).storedPages
    ∧ hostnameOf "http://other6.test/b" ≠ hostnameOf "http://seed6.test/" := by
  refine ⟨by decide, by decide⟩

/-- C6 (amended): link filtering looks only at the resolved URL's scheme —
membership in the extracted links is fully characterised without any
condition on the host — so external links are enqueued and fetched like
same-host ones: after the S2-style cycle the Page rows are exactly `/`,
`/a` and the external `/b`. -/
theorem C6_scheme_only_filtering :
    (∀ (doc : List DomElem) (base u : String),
        u ∈ _extract_links_from_page doc base ↔
          ((∃ href ∈ anchorHrefs doc, u = urljoinModel base href) ∧
            (strStartsWith u "http://" || strStartsWith u "https://") = true))
    ∧ (_crawl_single_site cfg6 plan6 seed6 6).storedPages
        = [("http://seed6.test/", 0), ("http://seed6.test/a", 1),
           ("http://other6.test/b", 1)] := by
  exact ⟨mem_extract_links, by decide⟩

def seed10 : String := "http://c10.test/"

def doc10 : List DomElem :=
  [.anchor "http://c10.test/1" "", .anchor "http://c10.test/2" "",
   .anchor "http://c10.test/3" ""]

def plan10 : String → FetchOutcome := planOfList
  [("http://c10.test/", .pageOk doc10 false false),
   ("http://c10.test/3", .pageOk [] false false)]

def cfg10 : CrawlConfig :=
  { crawlDepth := 1, maxPagesPerSite := 2, proxy := proxyAllOn }

/-- C10 counterexample: as for the page cap in C3, a post-commit
link-extraction failure stores a page without consuming budget, so the
number of stored pages can exceed `MAX_PAGES_PER_SITE` — refuting "the
number of stored pages never does". -/
theorem C10_stored_exceeds_cap_counterexample :
    cfg3.maxPagesPerSite = 2 ∧
    cfg3.maxPagesPerSite < (_crawl_single_site cfg3 plan3 seed3 5).storedPages.length := by
  constructor
  · rfl
  · decide

/-- C10 (amended): the counter is incremented only in an iteration that
committed its Page row, so it never exceeds the number of stored pages;
fetch failures consume no budget, so the number of page-fetch attempts can
exceed `MAX_PAGES_PER_SITE` while the stored pages stay within it (here:
four GETs against a cap of two). -/
theorem C10_counter_only_on_success :
    (∀ (cfg : CrawlConfig) (plan : String → FetchOutcome) (siteUrl : String)
        (fuel : Nat),
        (_crawl_single_site cfg plan siteUrl fuel).pagesCrawled
          ≤ (_crawl_single_site cfg plan siteUrl fuel).storedPages.length)
    ∧ ((_crawl_single_site cfg10 plan10 seed10 8).pageGets.length
          > cfg10.maxPagesPerSite
        ∧ (_crawl_single_site cfg10 plan10 seed10 8).storedPages.length
            ≤ cfg10.maxPagesPerSite) := by
  constructor
  · intro cfg plan siteUrl fuel
    unfold _crawl_single_site
    split
    · simp [initialCrawlState]
    · exact crawlLoop_pc_le_stored cfg plan fuel _ (by simp [initialCrawlState])
  · exact ⟨by decide, by decide⟩

/-! ## The crawl orchestrator
(`AIResearchCrawler.crawl_sites`, `mcp_engine.py:833-945`, and
`read_sites`, `mcp_engine.py:812-831`) -/

/-- `AIResearchCrawler.read_sites`: strip each line of the sites file and
keep the non-blank lines not starting with `#`. -/
def read_sites (lines : List String) : List String :=
  (lines.map pyStrip).filter (fun l => l != "" && !(strStartsWith l "#"))

/-- The hard retry cap: `max_retries = 10`, hardcoded at
`mcp_engine.py:849`. -/
def max_retries : Nat := 10

/-- The orchestrator's state across one cycle: the working queue, the
retry queue, `site_failure_counts`, the permanently failed sites,
`success_count`, and — as an explicit effect log — every dispatch of a site
to `_crawl_single_site`, in order. -/
structure OrchState where
  workingQueue : List String
  retryQueue : List String
  failureCounts : List (String × Nat)
  failedSites : List String
  successCount : Nat
  dispatchLog : List String
deriving DecidableEq, Repr

/-- `site_failure_counts.get(site, 0)`: the dictionary is modelled as an
association list in which the most recent binding shadows older ones. -/
def fcGet (d : List (String × Nat)) (k : String) : Nat := (d.lookup k).getD 0

/-- `site_failure_counts[site] = v`. -/
def fcSet (d : List (String × Nat)) (k : String) (v : Nat) : List (String × Nat) :=
  (k, v) :: d

/-- `del site_failure_counts[site]` (removes every binding of the key so
that lookups behave like the Python dict after deletion). -/
def fcDel (d : List (String × Nat)) (k : String) : List (String × Nat) :=
  d.filter (fun e => e.1 != k)

/-- Handling one completed site future (`mcp_engine.py:876-917`): the
dispatch itself is logged (the oracle's attempt index is the number of
prior dispatches of that site); on a truthy result the success counter
increments and the failure entry is deleted (lines 880-886); on a falsy
result or exception the failure count increments and the site goes to the
retry queue while below `max_retries`, else to the permanently failed list
(lines 887-917). -/
def processSite (result : String → Nat → Bool) (st : OrchState) (site : String) :
    OrchState :=
  if result site (st.dispatchLog.count site) then
    { st with dispatchLog := st.dispatchLog ++ [site],
              successCount := st.successCount + 1,
              failureCounts := fcDel st.failureCounts site }
  else if fcGet st.failureCounts site + 1 < max_retries then
    { st with dispatchLog := st.dispatchLog ++ [site],
              failureCounts := fcSet st.failureCounts site
                (fcGet st.failureCounts site + 1),
              retryQueue := st.retryQueue ++ [site] }
  else
    { st with dispatchLog := st.dispatchLog ++ [site],
              failureCounts := fcSet st.failureCounts site
                (fcGet st.failureCounts site + 1),
              failedSites := st.failedSites ++ [site] }

/-- One pass over the working queue (`mcp_engine.py:865-924`): every queued
site is dispatched exactly once and its result handled; afterwards the
working queue is cleared (line 924).  The source dispatches in batches of
`PARALLEL_SITES` and collects futures with `as_completed`, whose completion
order is unspecified; the per-site bookkeeping is independent across
distinct sites, so the round is determinized to queue order. -/
def processRound (result : String → Nat → Bool) (st : OrchState) : OrchState :=
  st.workingQueue.foldl (processSite result) { st with workingQueue := [] }

/-- Queue promotion (`mcp_engine.py:859-862`): when the working queue is
empty and the retry queue is not, the retry queue becomes the working
queue. -/
def orchPromote (st : OrchState) : OrchState :=
  if st.workingQueue.isEmpty && !st.retryQueue.isEmpty then
    { st with workingQueue := st.retryQueue, retryQueue := [] }
  else st

/-- The retry loop (`while working_queue or retry_queue`,
`mcp_engine.py:857`), fuel-bounded; each iteration promotes and processes
one round. -/
def orchLoop (result : String → Nat → Bool) : Nat → OrchState → OrchState
  | 0, st => st
  | fuel + 1, st =>
    if st.workingQueue.isEmpty && st.retryQueue.isEmpty then st
    else orchLoop result fuel (processRound result (orchPromote st))

/-- The state a cycle starts from (`mcp_engine.py:846-855`): the working
queue is a copy of the full parsed site list — no attribute of the sites
(in particular not `last_crawled`) is consulted. -/
def initialOrchState (lines : List String) : OrchState :=
  { workingQueue := read_sites lines, retryQueue := [], failureCounts := [],
    failedSites := [], successCount := 0, dispatchLog := [] }

/-- `AIResearchCrawler.crawl_sites` for one cycle, as a function of the
sites-file lines and the per-site outcome oracle (the truthiness of
`future.result()`; the concrete `_crawl_single_site` returns `None`, which
is falsy, but the orchestrator is modelled for any outcome). -/
def crawl_sites (lines : List String) (result : String → Nat → Bool) (fuel : Nat) :
    OrchState :=
  orchLoop result fuel (initialOrchState lines)

/-- Modelled from the spec: the freshness condition of §4.H step 1 —
"Sites whose `last_crawled` is within `RESEARCH_FREQUENCY_HOURS` are
skipped".  The source's queue computation (`mcp_engine.py:839-862`) has no
counterpart, so the predicate exists only to state the claim.  Times are
in hours. -/
def siteIsFresh (lastCrawledH nowH freqHours : Nat) : Prop :=
  nowH - lastCrawledH < freqHours

instance (a b c : Nat) : Decidable (siteIsFresh a b c) :=
  inferInstanceAs (Decidable (b - a < c))

/-! ## Dictionary and counting lemmas for the orchestrator -/

theorem lookup_cons_self {β : Type} (s : String) (v : β) (d : List (String × β)) :
    List.lookup s ((s, v) :: d) = some v := by
  simp [List.lookup]

theorem lookup_cons_ne {β : Type} {s k : String} (hne : k ≠ s) (v : β)
    (d : List (String × β)) : List.lookup s ((k, v) :: d) = List.lookup s d := by
  have hb : (s == k) = false := by simp [Ne.symm hne]
  simp [List.lookup, hb]

theorem lookup_filter_ne {β : Type} {s k : String} (hne : k ≠ s)
    (d : List (String × β)) :
    List.lookup s (d.filter (fun e => e.1 != k)) = List.lookup s d := by
  induction d with
  | nil => simp
  | cons e rest ih =>
    obtain ⟨k', v'⟩ := e
    by_cases hk : k' = k
    · subst hk
      have h1 : ((k', v').1 != k') = false := by simp
      simp only [List.filter_cons, h1, Bool.false_eq_true, if_false]
      rw [ih, lookup_cons_ne hne v' rest]
    · have h1 : ((k', v').1 != k) = true := by simp [hk]
      simp only [List.filter_cons, h1, if_true]
      by_cases hks : k' = s
      · subst hks
        rw [lookup_cons_self, lookup_cons_self]
      · rw [lookup_cons_ne hks, lookup_cons_ne hks, ih]

theorem count_append_one_ne {s site : String} (hne : site ≠ s) (l : List String) :
    (l ++ [site]).count s = l.count s := by
  simp [List.count_append, List.count_singleton', hne]

theorem count_append_one_self (s : String) (l : List String) :
    (l ++ [s]).count s = l.count s + 1 := by
  simp [List.count_append]

/-! ## Per-site effects of one dispatch -/

/-- Handling a different site's result leaves every `s`-projection of the
state unchanged (the working queue is never written at all). -/
theorem processSite_ne (result : String → Nat → Bool) (st : OrchState)
    {site s : String} (hne : site ≠ s) :
    (processSite result st site).dispatchLog.count s = st.dispatchLog.count s
    ∧ fcGet (processSite result st site).failureCounts s = fcGet st.failureCounts s
    ∧ (processSite result st site).workingQueue = st.workingQueue
    ∧ (processSite result st site).retryQueue.count s = st.retryQueue.count s
    ∧ (processSite result st site).failedSites.count s = st.failedSites.count s := by
  unfold processSite
  split
  · refine ⟨count_append_one_ne hne _, ?_, rfl, rfl, rfl⟩
    show fcGet (fcDel st.failureCounts site) s = fcGet st.failureCounts s
    simp only [fcGet, fcDel]
    rw [lookup_filter_ne hne]
  · split
    · refine ⟨count_append_one_ne hne _, ?_, rfl, count_append_one_ne hne _, rfl⟩
      show fcGet (fcSet st.failureCounts site _) s = fcGet st.failureCounts s
      simp only [fcGet, fcSet]
      rw [lookup_cons_ne hne]
    · refine ⟨count_append_one_ne hne _, ?_, rfl, rfl, count_append_one_ne hne _⟩
      show fcGet (fcSet st.failureCounts site _) s = fcGet st.failureCounts s
      simp only [fcGet, fcSet]
      rw [lookup_cons_ne hne]

/-- Dispatching an all-failing site `s` while its failure count is still
below the cap: one more dispatch, one more failure, requeued once. -/
theorem processSite_self_fail_lt (result : String → Nat → Bool) {s : String}
    (hfail : ∀ n, result s n = false) (st : OrchState)
    (hlt : fcGet st.failureCounts s + 1 < max_retries) :
    (processSite result st s).dispatchLog.count s = st.dispatchLog.count s + 1
    ∧ fcGet (processSite result st s).failureCounts s = fcGet st.failureCounts s + 1
    ∧ (processSite result st s).workingQueue = st.workingQueue
    ∧ (processSite result st s).retryQueue.count s = st.retryQueue.count s + 1
    ∧ (processSite result st s).failedSites.count s = st.failedSites.count s := by
  have hres : result s (st.dispatchLog.count s) = false := hfail _
  unfold processSite
  rw [if_neg (by simp [hres]), if_pos hlt]
  refine ⟨count_append_one_self s _, ?_, rfl, count_append_one_self s _, rfl⟩
  show fcGet (fcSet st.failureCounts s _) s = fcGet st.failureCounts s + 1
  simp only [fcGet, fcSet]
  rw [lookup_cons_self]
  rfl

/-- Dispatching an all-failing site `s` at the cap: one more dispatch, one
more failure, moved to the permanently failed list, never requeued. -/
theorem processSite_self_fail_ge (result : String → Nat → Bool) {s : String}
    (hfail : ∀ n, result s n = false) (st : OrchState)
    (hge : ¬ (fcGet st.failureCounts s + 1 < max_retries)) :
    (processSite result st s).dispatchLog.count s = st.dispatchLog.count s + 1
    ∧ fcGet (processSite result st s).failureCounts s = fcGet st.failureCounts s + 1
    ∧ (processSite result st s).workingQueue = st.workingQueue
    ∧ (processSite result st s).retryQueue.count s = st.retryQueue.count s
    ∧ (processSite result st s).failedSites.count s = st.failedSites.count s + 1 := by
  have hres : result s (st.dispatchLog.count s) = false := hfail _
  unfold processSite
  rw [if_neg (by simp [hres]), if_neg hge]
  refine ⟨count_append_one_self s _, ?_, rfl, rfl, count_append_one_self s _⟩
  show fcGet (fcSet st.failureCounts s _) s = fcGet st.failureCounts s + 1
  simp only [fcGet, fcSet]
  rw [lookup_cons_self]
  rfl

/-- A round over sites not containing `s` leaves every `s`-projection
unchanged. -/
theorem fold_notMem (result : String → Nat → Bool) {s : String} :
    ∀ (sites : List String) (st : OrchState), s ∉ sites →
      (sites.foldl (processSite result) st).dispatchLog.count s
          = st.dispatchLog.count s
      ∧ fcGet (sites.foldl (processSite result) st).failureCounts s
          = fcGet st.failureCounts s
      ∧ (sites.foldl (processSite result) st).workingQueue = st.workingQueue
      ∧ (sites.foldl (processSite result) st).retryQueue.count s
          = st.retryQueue.count s
      ∧ (sites.foldl (processSite result) st).failedSites.count s
          = st.failedSites.count s := by
  intro sites
  induction sites with
  | nil => intro st _; exact ⟨rfl, rfl, rfl, rfl, rfl⟩
  | cons site rest ih =>
    intro st hmem
    have hne : site ≠ s := fun h => hmem (h ▸ List.mem_cons_self site rest)
    have hrest : s ∉ rest := fun h => hmem (List.mem_cons_of_mem site h)
    obtain ⟨d1, f1, w1, r1, l1⟩ := processSite_ne result st hne
    obtain ⟨d2, f2, w2, r2, l2⟩ := ih (processSite result st site) hrest
    exact ⟨d2.trans d1, f2.trans f1, w2.trans w1, r2.trans r1, l2.trans l1⟩

/-- A round over sites containing the all-failing `s` exactly once: one
dispatch and one failure for `s`, requeued or abandoned according to the
cap. -/
theorem fold_allFail_once (result : String → Nat → Bool) {s : String}
    (hfail : ∀ n, result s n = false) :
    ∀ (sites : List String) (st : OrchState), sites.count s = 1 →
      (sites.foldl (processSite result) st).dispatchLog.count s
          = st.dispatchLog.count s + 1
      ∧ fcGet (sites.foldl (processSite result) st).failureCounts s
          = fcGet st.failureCounts s + 1
      ∧ (sites.foldl (processSite result) st).workingQueue = st.workingQueue
      ∧ (fcGet st.failureCounts s + 1 < max_retries →
          (sites.foldl (processSite result) st).retryQueue.count s
              = st.retryQueue.count s + 1
          ∧ (sites.foldl (processSite result) st).failedSites.count s
              = st.failedSites.count s)
      ∧ (¬ (fcGet st.failureCounts s + 1 < max_retries) →
          (sites.foldl (processSite result) st).retryQueue.count s
              = st.retryQueue.count s
          ∧ (sites.foldl (processSite result) st).failedSites.count s
              = st.failedSites.count s + 1) := by
  intro sites
  induction sites with
  | nil => intro st h; simp at h
  | cons site rest ih =>
    intro st hcount
    simp only [List.foldl_cons]
    by_cases hsite : site = s
    · rw [hsite] at hcount ⊢
      rw [List.count_cons_self] at hcount
      have hrest : s ∉ rest := by
        rw [← List.count_eq_zero]
        omega
      by_cases hlt : fcGet st.failureCounts s + 1 < max_retries
      · obtain ⟨d1, f1, w1, r1, l1⟩ := processSite_self_fail_lt result hfail st hlt
        obtain ⟨d2, f2, w2, r2, l2⟩ :=
          fold_notMem result rest (processSite result st s) hrest
        refine ⟨by rw [d2, d1], by rw [f2, f1], by rw [w2, w1],
          fun _ => ⟨by rw [r2, r1], by rw [l2, l1]⟩, fun h => absurd hlt h⟩
      · obtain ⟨d1, f1, w1, r1, l1⟩ := processSite_self_fail_ge result hfail st hlt
        obtain ⟨d2, f2, w2, r2, l2⟩ :=
          fold_notMem result rest (processSite result st s) hrest
        refine ⟨by rw [d2, d1], by rw [f2, f1], by rw [w2, w1],
          fun h => absurd h hlt, fun _ => ⟨by rw [r2, r1], by rw [l2, l1]⟩⟩
    · rw [List.count_cons_of_ne (fun h => hsite h.symm)] at hcount
      obtain ⟨d1, f1, w1, r1, l1⟩ := processSite_ne result st hsite
      obtain ⟨d2, f2, w2, r2, l2⟩ := ih (processSite result st site) hcount
      rw [f1] at f2 r2 l2
      refine ⟨by rw [d2, d1], by rw [f2], by rw [w2, w1],
        fun h => ?_, fun h => ?_⟩
      · obtain ⟨ra, rb⟩ := r2 h
        exact ⟨by rw [ra, r1], by rw [rb, l1]⟩
      · obtain ⟨ra, rb⟩ := l2 h
        exact ⟨by rw [ra, r1], by rw [rb, l1]⟩

/-! ## The life of an always-failing site across a cycle -/

/-- An always-failing site `s` still in play: queued exactly once overall,
with `k` failures, `k` dispatches, and not yet abandoned. -/
def allFailActive (s : String) (k : Nat) (st : OrchState) : Prop :=
  st.workingQueue.count s + st.retryQueue.count s = 1
  ∧ fcGet st.failureCounts s = k
  ∧ st.dispatchLog.count s = k
  ∧ st.failedSites.count s = 0

/-- An always-failing site `s` permanently abandoned for the cycle: out of
both queues, with `max_retries` failures and dispatches, listed once among
the failed sites. -/
def allFailDone (s : String) (st : OrchState) : Prop :=
  st.workingQueue.count s = 0
  ∧ st.retryQueue.count s = 0
  ∧ fcGet st.failureCounts s = max_retries
  ∧ st.dispatchLog.count s = max_retries
  ∧ st.failedSites.count s = 1

theorem orchPromote_fields (st : OrchState) :
    (orchPromote st).dispatchLog = st.dispatchLog
    ∧ (orchPromote st).failureCounts = st.failureCounts
    ∧ (orchPromote st).failedSites = st.failedSites := by
  unfold orchPromote
  split <;> exact ⟨rfl, rfl, rfl⟩

/-- After promotion, a site queued exactly once sits in the working queue
(the reachable states have an empty working queue or an empty retry
queue). -/
theorem orchPromote_single {s : String} {st : OrchState}
    (hshape : st.workingQueue = [] ∨ st.retryQueue = [])
    (hsum : st.workingQueue.count s + st.retryQueue.count s = 1) :
    (orchPromote st).workingQueue.count s = 1
    ∧ (orchPromote st).retryQueue.count s = 0 := by
  unfold orchPromote
  split
  · rename_i hcond
    simp only [Bool.and_eq_true, List.isEmpty_iff, Bool.not_eq_true'] at hcond
    have hw : st.workingQueue = [] := hcond.1
    rw [hw] at hsum
    simp only [List.count_nil, Nat.zero_add] at hsum
    exact ⟨hsum, by simp⟩
  · rename_i hcond
    rcases hshape with hw | hr
    · exfalso
      rcases List.eq_nil_or_concat st.retryQueue with hr | ⟨l, a, hr⟩
      · rw [hw, hr] at hsum
        simp at hsum
      · apply hcond
        simp [hw, hr]
    · rw [hr] at hsum ⊢
      simp only [List.count_nil, Nat.add_zero] at hsum
      exact ⟨hsum, by simp⟩

/-- One promoted-and-processed round of an active always-failing site:
one more dispatch and failure, requeued below the cap, abandoned at it. -/
theorem round_allFail (result : String → Nat → Bool) {s : String}
    (hfail : ∀ n, result s n = false) (st : OrchState) (k : Nat)
    (hA : allFailActive s k st)
    (hshape : st.workingQueue = [] ∨ st.retryQueue = []) :
    (processRound result (orchPromote st)).workingQueue = []
    ∧ (processRound result (orchPromote st)).dispatchLog.count s = k + 1
    ∧ fcGet (processRound result (orchPromote st)).failureCounts s = k + 1
    ∧ (k + 1 < max_retries →
        (processRound result (orchPromote st)).retryQueue.count s = 1
        ∧ (processRound result (orchPromote st)).failedSites.count s = 0)
    ∧ (¬ (k + 1 < max_retries) →
        (processRound result (orchPromote st)).retryQueue.count s = 0
        ∧ (processRound result (orchPromote st)).failedSites.count s = 1) := by
  obtain ⟨hsum, hfc, hdisp, hfld⟩ := hA
  obtain ⟨hw1, hr1⟩ := orchPromote_single hshape hsum
  obtain ⟨hd0, hf0, hl0⟩ := orchPromote_fields st
  unfold processRound
  obtain ⟨D, F, W, R, L⟩ := fold_allFail_once result hfail
    (orchPromote st).workingQueue
    { orchPromote st with workingQueue := [] } hw1
  have hfcB : fcGet { orchPromote st with workingQueue := [] }.failureCounts s = k := by
    show fcGet (orchPromote st).failureCounts s = k
    rw [hf0, hfc]
  rw [hfcB] at F R L
  refine ⟨W, ?_, F, ?_, ?_⟩
  · rw [D]
    show (orchPromote st).dispatchLog.count s + 1 = k + 1
    rw [hd0, hdisp]
  · intro hlt
    obtain ⟨ra, rb⟩ := R hlt
    constructor
    · rw [ra]
      show (orchPromote st).retryQueue.count s + 1 = 1
      rw [hr1]
    · rw [rb]
      show (orchPromote st).failedSites.count s = 0
      rw [hl0, hfld]
  · intro hge
    obtain ⟨ra, rb⟩ := L hge
    constructor
    · rw [ra]
      exact hr1
    · rw [rb]
      show (orchPromote st).failedSites.count s + 1 = 1
      rw [hl0, hfld]

/-- Once abandoned, an always-failing site is never touched again in the
cycle: no further dispatch, no queue membership, its failure count and
failed-list entry frozen. -/
theorem orchLoop_done_preserved (result : String → Nat → Bool) {s : String} :
    ∀ (fuel : Nat) (st : OrchState), allFailDone s st →
      allFailDone s (orchLoop result fuel st) := by
  intro fuel
  induction fuel with
  | zero => intro st h; exact h
  | succ n ih =>
    intro st h
    obtain ⟨hw, hr, hf, hd, hl⟩ := h
    unfold orchLoop
    split
    · exact ⟨hw, hr, hf, hd, hl⟩
    · apply ih
      obtain ⟨hd0, hf0, hl0⟩ := orchPromote_fields st
      have hw' : (orchPromote st).workingQueue.count s = 0 := by
        unfold orchPromote
        split
        · exact hr
        · exact hw
      have hr' : (orchPromote st).retryQueue.count s = 0 := by
        unfold orchPromote
        split
        · simp
        · exact hr
      obtain ⟨D, F, W, R, L⟩ := fold_notMem result (orchPromote st).workingQueue
        { orchPromote st with workingQueue := [] } (List.count_eq_zero.mp hw')
      refine ⟨?_, ?_, ?_, ?_, ?_⟩
      · unfold processRound
        rw [W]
        rfl
      · unfold processRound
        rw [R]
        exact hr'
      · unfold processRound
        rw [F]
        show fcGet (orchPromote st).failureCounts s = max_retries
        rw [hf0, hf]
      · unfold processRound
        rw [D]
        show (orchPromote st).dispatchLog.count s = max_retries
        rw [hd0, hd]
      · unfold processRound
        rw [L]
        show (orchPromote st).failedSites.count s = 1
        rw [hl0, hl]

/-- An active always-failing site reaches the abandoned state within
`max_retries - k` further rounds and stays there. -/
theorem orchLoop_allFail (result : String → Nat → Bool) {s : String}
    (hfail : ∀ n, result s n = false) :
    ∀ (fuel : Nat) (st : OrchState) (k : Nat),
      allFailActive s k st → (st.workingQueue = [] ∨ st.retryQueue = []) →
      k < max_retries → max_retries - k ≤ fuel →
      allFailDone s (orchLoop result fuel st) := by
  intro fuel
  induction fuel with
  | zero =>
    intro st k _ _ hk hfu
    omega
  | succ n ih =>
    intro st k hA hsh hk hfu
    unfold orchLoop
    rw [if_neg (by
      simp only [Bool.and_eq_true, List.isEmpty_iff]
      rintro ⟨h1, h2⟩
      obtain ⟨hsum, -, -, -⟩ := hA
      rw [h1, h2] at hsum
      simp at hsum)]
    obtain ⟨hW, hD, hF, hR, hL⟩ := round_allFail result hfail st k hA hsh
    by_cases hlt : k + 1 < max_retries
    · obtain ⟨hr1, hl0⟩ := hR hlt
      exact ih _ (k + 1) ⟨by simp [hW, hr1], hF, hD, hl0⟩ (Or.inl hW) hlt (by omega)
    · obtain ⟨hr0, hl1⟩ := hL hlt
      apply orchLoop_done_preserved
      have hfc10 : k + 1 = max_retries := by omega
      exact ⟨by simp [hW], hr0, by rw [hF, hfc10], by rw [hD, hfc10], hl1⟩

/-- C7: within one cycle, a site that fails every attempt is tried exactly
`max_retries` (= 10, hardcoded at line 849) times — the initial attempt and
nine re-dispatches from the retry queue — accumulating `max_retries` total
failures, after which it is recorded as permanently failed and is never
dispatched again in that cycle (its total dispatch count over the whole
cycle is exactly `max_retries` and it is in neither queue). -/
theorem C7_retry_budget (lines : List String) (result : String → Nat → Bool)
    (s : String) (fuel : Nat)
    (hcount : (read_sites lines).count s = 1)
    (hfail : ∀ n, result s n = false)
    (hfuel : max_retries ≤ fuel) :
    (crawl_sites lines result fuel).dispatchLog.count s = max_retries
    ∧ fcGet (crawl_sites lines result fuel).failureCounts s = max_retries
    ∧ (crawl_sites lines result fuel).failedSites.count s = 1
    ∧ s ∉ (crawl_sites lines result fuel).workingQueue
    ∧ s ∉ (crawl_sites lines result fuel).retryQueue := by
  have hdone := orchLoop_allFail result hfail fuel (initialOrchState lines) 0
    ⟨by simpa [initialOrchState] using hcount, rfl, rfl, rfl⟩
    (Or.inr rfl) (by decide) (by omega)
  obtain ⟨hw, hr, hf, hd, hl⟩ := hdone
  exact ⟨hd, hf, hl, List.count_eq_zero.mp hw, List.count_eq_zero.mp hr⟩

def lines7 : List String := ["http://fail7.test"]

/-- Witness for C7: a single always-failing site with ample fuel. -/
theorem C7_retry_budget_witness :
    (crawl_sites lines7 (fun _ _ => false) 12).dispatchLog.count "http://fail7.test"
        = max_retries
    ∧ fcGet (crawl_sites lines7 (fun _ _ => false) 12).failureCounts "http://fail7.test"
        = max_retries
    ∧ (crawl_sites lines7 (fun _ _ => false) 12).failedSites.count "http://fail7.test"
        = 1
    ∧ "http://fail7.test" ∉ (crawl_sites lines7 (fun _ _ => false) 12).workingQueue
    ∧ "http://fail7.test" ∉ (crawl_sites lines7 (fun _ _ => false) 12).retryQueue :=
  C7_retry_budget lines7 (fun _ _ => false) "http://fail7.test" 12
    (by decide) (fun _ => rfl) (by decide)

/-! ## No freshness filter in the orchestrator -/

theorem processSite_dispatch_le (result : String → Nat → Bool) (st : OrchState)
    (site s : String) :
    st.dispatchLog.count s ≤ (processSite result st site).dispatchLog.count s := by
  unfold processSite
  split
  · simp [List.count_append]
  split
  · simp [List.count_append]
  · simp [List.count_append]

theorem fold_dispatch_le (result : String → Nat → Bool) (s : String) :
    ∀ (sites : List String) (st : OrchState),
      st.dispatchLog.count s
        ≤ (sites.foldl (processSite result) st).dispatchLog.count s := by
  intro sites
  induction sites with
  | nil => intro st; exact Nat.le_refl _
  | cons site rest ih =>
    intro st
    simp only [List.foldl_cons]
    exact Nat.le_trans (processSite_dispatch_le result st site s) (ih _)

/-- Every branch of `processSite` logs the dispatch. -/
theorem processSite_dispatch_self (result : String → Nat → Bool) (st : OrchState)
    (s : String) :
    (processSite result st s).dispatchLog.count s = st.dispatchLog.count s + 1 := by
  unfold processSite
  split
  · exact count_append_one_self s _
  split
  · exact count_append_one_self s _
  · exact count_append_one_self s _

theorem fold_dispatch_mem (result : String → Nat → Bool) (s : String) :
    ∀ (sites : List String) (st : OrchState), s ∈ sites →
      st.dispatchLog.count s + 1
        ≤ (sites.foldl (processSite result) st).dispatchLog.count s := by
  intro sites
  induction sites with
  | nil => intro st h; cases h
  | cons site rest ih =>
    intro st hmem
    simp only [List.foldl_cons]
    by_cases hsite : site = s
    · calc st.dispatchLog.count s + 1
          = (processSite result st site).dispatchLog.count s := by
            rw [hsite, processSite_dispatch_self]
        _ ≤ _ := fold_dispatch_le result s rest _
    · have hrest : s ∈ rest := by
        rcases List.mem_cons.mp hmem with h | h
        · exact absurd h.symm hsite
        · exact h
      calc st.dispatchLog.count s + 1
          ≤ (processSite result st site).dispatchLog.count s + 1 := by
            have := processSite_dispatch_le result st site s
            omega
        _ ≤ _ := ih _ hrest

theorem orchLoop_dispatch_le (result : String → Nat → Bool) (s : String) :
    ∀ (fuel : Nat) (st : OrchState),
      st.dispatchLog.count s ≤ (orchLoop result fuel st).dispatchLog.count s := by
  intro fuel
  induction fuel with
  | zero => intro st; exact Nat.le_refl _
  | succ n ih =>
    intro st
    unfold orchLoop
    split
    · exact Nat.le_refl _
    · refine Nat.le_trans ?_ (ih _)
      obtain ⟨hd0, -, -⟩ := orchPromote_fields st
      unfold processRound
      refine Nat.le_trans ?_ (fold_dispatch_le result s _ _)
      show st.dispatchLog.count s
        ≤ (orchPromote st).dispatchLog.count s
      rw [hd0]

/-- C8 counterexample: a site whose `last_crawled` lies well inside the
`RESEARCH_FREQUENCY_HOURS` window (it was crawled this very hour) is still
dispatched in the next cycle — the working queue never consults
freshness. -/
theorem C8_fresh_site_still_crawled :
    siteIsFresh 1000 1000 24
    ∧ (crawl_sites ["http://fresh8.test"] (fun _ _ => true) 3).dispatchLog.count
        "http://fresh8.test" = 1 := by
  constructor
  · show 1000 - 1000 < 24
    decide
  · decide

/-- C8 (amended): the working queue computed at the start of a cycle is the
full parsed site list; no freshness filtering occurs, so every listed site
— however fresh its `last_crawled` — is dispatched at least once per cycle
(the revisit interval exists only as the sleep between cycles). -/
theorem C8_no_freshness_skip (lines : List String) (result : String → Nat → Bool)
    (s : String) (fuel lastCrawledH nowH freqHours : Nat)
    (_hfresh : siteIsFresh lastCrawledH nowH freqHours)
    (hmem : s ∈ read_sites lines) (hfuel : 1 ≤ fuel) :
    1 ≤ (crawl_sites lines result fuel).dispatchLog.count s := by
  obtain ⟨m, rfl⟩ : ∃ m, fuel = m + 1 := ⟨fuel - 1, by omega⟩
  unfold crawl_sites orchLoop
  rw [if_neg (by
    simp only [Bool.and_eq_true, List.isEmpty_iff]
    rintro ⟨h1, -⟩
    rw [show (initialOrchState lines).workingQueue = read_sites lines from rfl] at h1
    rw [h1] at hmem
    cases hmem)]
  have hpr : orchPromote (initialOrchState lines) = initialOrchState lines := by
    unfold orchPromote
    rw [if_neg]
    simp only [Bool.and_eq_true, List.isEmpty_iff]
    rintro ⟨h1, -⟩
    rw [show (initialOrchState lines).workingQueue = read_sites lines from rfl] at h1
    rw [h1] at hmem
    cases hmem
  rw [hpr]
  have h1 : 1 ≤ (processRound result (initialOrchState lines)).dispatchLog.count s := by
    unfold processRound
    have hm := fold_dispatch_mem result s (read_sites lines)
      { initialOrchState lines with workingQueue := [] } hmem
    simpa [initialOrchState] using hm
  exact Nat.le_trans h1 (orchLoop_dispatch_le result s m _)

/-- Witness for the amended C8: the fresh site of the counterexample is
dispatched. -/
theorem C8_no_freshness_skip_witness :
    1 ≤ (crawl_sites ["http://fresh8.test"] (fun _ _ => true) 2).dispatchLog.count
        "http://fresh8.test" :=
  C8_no_freshness_skip ["http://fresh8.test"] (fun _ _ => true) "http://fresh8.test"
    2 1000 1000 24 (by decide) (by decide) (by decide)

end DeepwebProxy
